import Mathlib

/-
Verification development for the `synctranslations` management command of
django-translations (src/translations/management/commands/synctranslations.py).

The command is shallowly embedded as pure Lean functions:

* `RecordType` models a content type together with the properties the command
  reads off its model class: whether the model class is a subclass of
  `Translatable` and, if so, the list returned by
  `_get_translatable_fields_names()`.
* `TranslationRow` models one row of the `Translation` table: its
  `content_type` and its `field`.
* `DjangoQ` models Django `Q` objects as used here: the empty `Q()` (which
  matches every row when used as a filter) and a non-empty node carrying a
  row predicate; `DjangoQ.or` follows `Q.__or__`, which returns the other
  operand when one side is the empty `Q()`.
* `resolveScope` models lines 46-56: validation of the optional `app_label`
  against the registered app configs (Python truthiness: the empty string is
  falsy and skips validation), then the choice between
  `ContentType.objects.filter(app_label=...)` and `ContentType.objects.all()`.
* `buildQuery` / `staleRows` model lines 59-72: the per-model `Q` objects
  `Q(content_type=ct) & ~Q(field__in=fields)` (for `Translatable` models) or
  `Q(content_type=ct)` (otherwise), OR-folded starting from `Q()`, then
  `Translation.objects.filter(query)`.
* `changesOf` / `changeLine` / `reportWrites` model lines 78-93: the
  insertion-ordered dict `changes` mapping model name to the set of affected
  fields, and the rendered report.  A Python `set` iterates in an arbitrary
  (hash-dependent) order, so the renderer is parametrised by an order-choice
  function `sigma`; any `sigma` producing a permutation of the
  first-appearance-ordered distinct fields is a faithful behaviour, and
  `pyOrder` is the canonical representative.
* `promptDecision` models lines 101-117: one round of the prompt loop
  (every branch of the loop body executes a `return` statement, so the loop
  body runs at most once and its value is the return value of `handle`).
* `handle` models the whole `Command.handle` control flow.  Its result is
  `Except.error msg` for a raised `CommandError` (non-zero exit, nothing
  deleted) or `Except.ok` of a `HandleOutcome` recording the Python return
  value of `handle`, the rows passed to `queryset.delete()`, the strings
  written via `self.stdout.write`, and whether `input()` was called.
  The `KeyboardInterrupt` path (lines 118-120) is not modelled: the input
  line is always delivered.
-/

/-- A content type in scope of the command, with the data `handle` reads from
its model class: `__name__`, the content type's `app_label`, whether the model
is a subclass of `Translatable`, and `_get_translatable_fields_names()`. -/
structure RecordType where
  name : String
  appLabel : String
  translatable : Bool
  translatableFields : List String
  deriving DecidableEq

/-- One row of the `Translation` table: its `content_type` and `field`. -/
structure TranslationRow where
  contentType : RecordType
  field : String
  deriving DecidableEq

/-- A Django `Q` object as used by this command: either the empty `Q()` or a
non-empty node carrying a row predicate. -/
inductive DjangoQ where
  | empty : DjangoQ
  | node : (TranslationRow → Bool) → DjangoQ

/-- `Q.__or__`: combining with an empty `Q()` returns the other operand;
two non-empty nodes form a disjunction. -/
def DjangoQ.or : DjangoQ → DjangoQ → DjangoQ
  | DjangoQ.empty, q => q
  | q, DjangoQ.empty => q
  | DjangoQ.node p, DjangoQ.node q => DjangoQ.node (fun t => p t || q t)

/-- Which rows `Translation.objects.filter(q)` keeps: the empty `Q()` adds no
condition and matches every row. -/
def DjangoQ.matchesRow : DjangoQ → TranslationRow → Bool
  | DjangoQ.empty, _ => true
  | DjangoQ.node p, t => p t

/-- `Q(content_type=content_type) & ~Q(field__in=translatable_fields)`
(lines 64-68), for a model that is a subclass of `Translatable`. -/
def translatableModelQuery (ct : RecordType) (t : TranslationRow) : Bool :=
  decide (t.contentType = ct) && ! decide (t.field ∈ ct.translatableFields)

/-- `Q(content_type=content_type)` (line 70), for a model that is not a
subclass of `Translatable`. -/
def plainModelQuery (ct : RecordType) (t : TranslationRow) : Bool :=
  decide (t.contentType = ct)

/-- The per-content-type `model_query` of lines 62-70. -/
def modelQuery (ct : RecordType) (t : TranslationRow) : Bool :=
  if ct.translatable then translatableModelQuery ct t else plainModelQuery ct t

/-- Lines 59-71: `query = Q()`, then `query |= model_query` for each content
type in scope. -/
def buildQuery (cts : List RecordType) : DjangoQ :=
  cts.foldl (fun q ct => q.or (DjangoQ.node (modelQuery ct))) DjangoQ.empty

/-- Line 72: `queryset = Translation.objects.filter(query)`, the
candidate-for-deletion set. -/
def staleRows (cts : List RecordType) (rows : List TranslationRow) : List TranslationRow :=
  rows.filter (buildQuery cts).matchesRow

/-- The external state the command reads: the labels of the registered app
configs (`apps.get_app_configs()`), the rows of the content-type table
(`ContentType.objects`), and the rows of the translation table
(`Translation.objects`).  An app config may be registered while contributing
no content-type rows (an app without models), which is why the two lists are
independent. -/
structure SyncEnv where
  appLabels : List String
  contentTypes : List RecordType
  translations : List TranslationRow
  deriving DecidableEq

/-- The command options read at lines 41-43. -/
structure CmdOptions where
  verbosity : Nat
  interactive : Bool
  appLabel : Option String
  deriving DecidableEq

/-- The standard-input stream: whether it has an `isatty` attribute, what
`isatty()` reports, and the line `input()` would deliver. -/
structure Stdin where
  hasIsatty : Bool
  isatty : Bool
  line : String
  deriving DecidableEq

/-- Lines 46-56: validate the optional `app_label` against the registered app
configs and resolve the content types in scope.  Python truthiness: both
`None` and the empty string skip validation and select all content types. -/
def resolveScope (env : SyncEnv) (appLabel : Option String) :
    Except String (List RecordType) :=
  match appLabel with
  | none => Except.ok env.contentTypes
  | some lbl =>
    if lbl = "" then Except.ok env.contentTypes
    else if lbl ∈ env.appLabels then
      Except.ok (env.contentTypes.filter (fun ct => decide (ct.appLabel = lbl)))
    else
      Except.error ("App '" ++ lbl ++ "' is not found.")

/-- One step of building the `changes` dict (lines 79-83): insertion-ordered
keys, and per key the set of fields represented canonically as the
first-appearance-ordered list of distinct fields. -/
def addChange (acc : List (String × List String)) (m f : String) :
    List (String × List String) :=
  match acc with
  | [] => [(m, [f])]
  | p :: rest =>
    if p.1 = m then
      (p.1, if f ∈ p.2 then p.2 else p.2 ++ [f]) :: rest
    else
      p :: addChange rest m f

/-- Lines 79-83: the `changes` dict built by iterating the queryset. -/
def changesOf (rows : List TranslationRow) : List (String × List String) :=
  rows.foldl (fun acc t => addChange acc t.contentType.name t.field) []

/-- The fields recorded for a model name (empty when the key is absent). -/
def lookupFields : List (String × List String) → String → List String
  | [], _ => []
  | p :: rest, m => if p.1 = m then p.2 else lookupFields rest m

/-- The keys of the `changes` dict, in insertion order. -/
def keysOf (acc : List (String × List String)) : List String :=
  acc.map Prod.fst

/-- Lines 85-89: one rendered line of the change list, for a displayed field
list `fs`. -/
def changeLine (m : String) (fs : List String) : String :=
  "- '" ++ String.intercalate ", " fs ++ "' field" ++
    (if 1 < fs.length then "s" else "") ++ " in '" ++ m ++ "' model"

/-- Line 92's header. -/
def reportHeader : String :=
  "The translations for the following will be deleted:"

/-- Lines 78-93: what the reporting step writes to stdout, as a list of
`self.stdout.write` calls.  `sigma` chooses the iteration order of each
Python field set; a faithful choice returns a permutation of the canonical
first-appearance list. -/
def reportWrites (sigma : String → List String → List String) (verbosity : Nat)
    (queryset : List TranslationRow) : List String :=
  if 1 ≤ verbosity then
    [reportHeader,
     String.intercalate "\n"
       ((changesOf queryset).map (fun p => changeLine p.1 (sigma p.1 p.2)))]
  else []

/-- Lines 122-126's message. -/
def ttySkipMessage : String :=
  "Synchronizing translations skipped due to not running in a TTY. " ++
  "You can run `manage.py synctranslations` in your project " ++
  "to synchronize translations manually."

/-- Line 132's message. -/
def successMessage : String := "Successfully synchronized translations."

/-- Line 134's message. -/
def cancelMessage : String := "Synchronizing translations cancelled."

/-- Line 136's message. -/
def nothingMessage : String := "No translations to synchronize."

/-- Python `str.lower()` (line 105's `.lower()`), as a character-wise map;
it agrees with Python on the ASCII inputs the prompt compares against. -/
def pyLower (s : String) : String :=
  String.mk (s.data.map Char.toLower)

/-- Lines 101-117: one round of the prompt loop.  The entered line is
lowercased, empty input defaults to `"y"`, and each branch of the loop body
executes a `return` statement whose value this function computes; the
`while run is None` loop therefore never runs a second iteration. -/
def promptDecision (line : String) : Option Bool :=
  let raw := pyLower line
  let raw' := if raw = "" then "y" else raw
  if raw' = "y" ∨ raw' = "yes" then some true
  else if raw' = "n" ∨ raw' = "no" then some false
  else none

/-- The observable outcome of a non-raising run of `Command.handle`: the
Python return value of `handle`, the rows passed to `queryset.delete()`, the
strings written via `self.stdout.write` in order, and whether `input()` was
called. -/
structure HandleOutcome where
  ret : Option Bool
  deleted : List TranslationRow
  stdout : List String
  prompted : Bool
  deriving DecidableEq

/-- Lines 38-136: the whole `Command.handle` control flow.  `Except.error`
models a raised `CommandError` (the command aborts with a non-zero exit
before any translation-row query or deletion).  In the interactive TTY
branch the prompt-loop `return` statements return from `handle` itself, so
`run` is never assigned there and lines 130-134 are not reached. -/
def handle (sigma : String → List String → List String) (env : SyncEnv)
    (stdin : Stdin) (opts : CmdOptions) : Except String HandleOutcome :=
  match resolveScope env opts.appLabel with
  | Except.error msg => Except.error msg
  | Except.ok contentTypes =>
    let queryset := staleRows contentTypes env.translations
    if queryset.isEmpty then
      Except.ok ⟨none, [], [nothingMessage], false⟩
    else
      let reportOut := reportWrites sigma opts.verbosity queryset
      if opts.interactive then
        if stdin.hasIsatty && !stdin.isatty then
          Except.ok ⟨none, [], reportOut ++ [ttySkipMessage, cancelMessage], false⟩
        else
          Except.ok ⟨promptDecision stdin.line, [], reportOut, true⟩
      else
        Except.ok ⟨none, queryset, reportOut ++ [successMessage], false⟩

/-- The canonical set-iteration order: first appearance.  One of the orders a
Python `set` may exhibit. -/
def pyOrder : String → List String → List String := fun _ fs => fs

/-- Another admissible set-iteration order: reversed first appearance. -/
def revOrder : String → List String → List String := fun _ fs => fs.reverse

/-- Fixture: a `Translatable` model `Article` of app `blog` declaring
translatable fields `title` and `body`. -/
def articleType : RecordType := ⟨"Article", "blog", true, ["title", "body"]⟩

/-- Fixture: a `Translatable` model `LegacyPage` whose
`_get_translatable_fields_names()` returns the empty list. -/
def legacyType : RecordType := ⟨"LegacyPage", "cms", true, []⟩

/-- Fixture: a translation row for `Article.title` (a declared field). -/
def rowTitle : TranslationRow := ⟨articleType, "title"⟩

/-- Fixture: a stale translation row for `Article.subtitle`. -/
def rowSubtitle : TranslationRow := ⟨articleType, "subtitle"⟩

/-- Fixture: a stale translation row for `Article.caption`. -/
def rowCaption : TranslationRow := ⟨articleType, "caption"⟩

/-- Fixture: an environment with one app `blog`, its `Article` content type,
one fresh row and one stale row. -/
def envBlog : SyncEnv := ⟨["blog"], [articleType], [rowTitle, rowSubtitle]⟩

/-- Fixture: an environment where app `emptyapp` is registered but owns no
content-type rows, while the translation table holds a fresh `Article.title`
row. -/
def envEmptyScope : SyncEnv := ⟨["emptyapp", "blog"], [articleType], [rowTitle]⟩

/-- Fixture: default options (verbosity 1, interactive, no app label). -/
def interactiveOpts : CmdOptions := ⟨1, true, none⟩

/-- Fixture: `--noinput` options. -/
def noinputOpts : CmdOptions := ⟨1, false, none⟩

/-- Fixture: an environment whose only translation row is fresh, so the
candidate set is empty. -/
def envQuiet : SyncEnv := ⟨["blog"], [articleType], [rowTitle]⟩

/-- OR-folding non-empty nodes onto a non-empty node yields the pointwise
disjunction. -/
lemma foldl_or_node (p : TranslationRow → Bool) (cts : List RecordType)
    (t : TranslationRow) :
    (cts.foldl (fun q ct => q.or (DjangoQ.node (modelQuery ct)))
        (DjangoQ.node p)).matchesRow t
      = (p t || cts.any (fun ct => modelQuery ct t)) := by
  induction cts generalizing p with
  | nil => simp [DjangoQ.matchesRow]
  | cons c cs ih =>
    rw [List.foldl_cons]
    have h : (DjangoQ.node p).or (DjangoQ.node (modelQuery c))
        = DjangoQ.node (fun t => p t || modelQuery c t) := rfl
    rw [h, ih]
    simp [Bool.or_assoc]

/-- The combined query of lines 59-71 matches every row when no content type
is in scope (the filter is then the empty `Q()`), and otherwise matches the
disjunction of the per-type queries. -/
lemma buildQuery_matchesRow (cts : List RecordType) (t : TranslationRow) :
    (buildQuery cts).matchesRow t
      = (cts.isEmpty || cts.any (fun ct => modelQuery ct t)) := by
  cases cts with
  | nil => simp [buildQuery, DjangoQ.matchesRow]
  | cons c cs =>
    rw [buildQuery, List.foldl_cons]
    have h : DjangoQ.empty.or (DjangoQ.node (modelQuery c))
        = DjangoQ.node (modelQuery c) := rfl
    rw [h, foldl_or_node]
    simp

/-- Unfolding of the per-type query: the row's content type must be the given
one, and for a `Translatable` model the field must not be declared. -/
lemma modelQuery_eq_true {ct : RecordType} {t : TranslationRow} :
    modelQuery ct t = true ↔
      (t.contentType = ct ∧
        (ct.translatable = true → t.field ∉ ct.translatableFields)) := by
  unfold modelQuery translatableModelQuery plainModelQuery
  cases h : ct.translatable <;> simp [h]

/-- Membership in the candidate-for-deletion set. -/
lemma mem_staleRows {cts : List RecordType} {rows : List TranslationRow}
    {t : TranslationRow} :
    t ∈ staleRows cts rows ↔
      t ∈ rows ∧ (cts = [] ∨ ∃ ct ∈ cts, modelQuery ct t = true) := by
  rw [staleRows, List.mem_filter, buildQuery_matchesRow]
  cases cts <;> simp

/-- Appending one fresh element keeps a list duplicate-free. -/
lemma nodup_append_singleton {α : Type} {l : List α} {a : α}
    (h : l.Nodup) (ha : a ∉ l) : (l ++ [a]).Nodup := by
  simp [List.nodup_append, h, ha]

/-- `addChange` keeps existing keys and appends the key when it is new. -/
lemma keysOf_addChange (acc : List (String × List String)) (m f : String) :
    keysOf (addChange acc m f)
      = if m ∈ keysOf acc then keysOf acc else keysOf acc ++ [m] := by
  induction acc with
  | nil => simp [addChange, keysOf]
  | cons p rest ih =>
    by_cases hp : p.1 = m
    · simp [addChange, keysOf, hp]
    · have hne : ¬ m = p.1 := fun h => hp h.symm
      simp only [addChange, if_neg hp, keysOf, List.map_cons, List.mem_cons, hne,
        false_or]
      by_cases hm : m ∈ keysOf rest
      · simp [keysOf] at hm
        simp [keysOf] at ih
        simp [hm, ih]
      · simp [keysOf] at hm
        simp [keysOf] at ih
        simp [hm, ih]

/-- Key membership after one `addChange` step. -/
lemma mem_keysOf_addChange (acc : List (String × List String)) (m f m' : String) :
    m' ∈ keysOf (addChange acc m f) ↔ m' ∈ keysOf acc ∨ m' = m := by
  rw [keysOf_addChange]
  by_cases hm : m ∈ keysOf acc
  · simp only [if_pos hm]
    constructor
    · exact Or.inl
    · rintro (h | h)
      · exact h
      · exact h ▸ hm
  · simp [if_neg hm]

/-- `addChange` preserves duplicate-freedom of the keys. -/
lemma keysOf_addChange_nodup (acc : List (String × List String)) (m f : String)
    (h : (keysOf acc).Nodup) : (keysOf (addChange acc m f)).Nodup := by
  rw [keysOf_addChange]
  by_cases hm : m ∈ keysOf acc
  · simpa [if_pos hm] using h
  · rw [if_neg hm]
    exact nodup_append_singleton h hm

/-- `addChange` preserves duplicate-freedom of every field list. -/
lemma fields_addChange_nodup (acc : List (String × List String)) (m f : String)
    (h : ∀ p ∈ acc, p.2.Nodup) :
    ∀ p ∈ addChange acc m f, p.2.Nodup := by
  induction acc with
  | nil =>
    intro p hp
    simp [addChange] at hp
    simp [hp]
  | cons q rest ih =>
    intro p hp
    by_cases hq : q.1 = m
    · simp only [addChange, if_pos hq, List.mem_cons] at hp
      rcases hp with hp | hp
      · subst hp
        by_cases hf : f ∈ q.2
        · simpa [if_pos hf] using h q (by simp)
        · simp only [if_neg hf]
          exact nodup_append_singleton (h q (by simp)) hf
      · exact h p (by simp [hp])
    · simp only [addChange, if_neg hq, List.mem_cons] at hp
      rcases hp with hp | hp
      · exact h p (by simp [hp])
      · exact ih (fun r hr => h r (by simp [hr])) p hp

/-- How one `addChange` step changes the recorded fields of each key. -/
lemma lookupFields_addChange (acc : List (String × List String)) (m f m' : String) :
    lookupFields (addChange acc m f) m'
      = if m' = m then
          (if f ∈ lookupFields acc m then lookupFields acc m
           else lookupFields acc m ++ [f])
        else lookupFields acc m' := by
  induction acc with
  | nil =>
    by_cases h : m' = m
    · simp [addChange, lookupFields, h]
    · have : ¬ m = m' := fun e => h e.symm
      simp [addChange, lookupFields, h, this]
  | cons p rest ih =>
    by_cases hp : p.1 = m
    · by_cases h : m' = m
      · have hpm' : p.1 = m' := by rw [hp, h]
        simp [addChange, lookupFields, hp, h, hpm']
      · have hpm' : ¬ p.1 = m' := by rw [hp]; exact fun e => h e.symm
        have hmm' : ¬ m = m' := fun e => h e.symm
        simp [addChange, lookupFields, hp, h, hpm', hmm']
    · by_cases h : m' = m
      · subst h
        simp [addChange, lookupFields, hp, ih]
      · by_cases hpm' : p.1 = m'
        · simp [addChange, lookupFields, hp, h, hpm']
        · simp [addChange, lookupFields, hp, h, hpm', ih]

/-- Field membership in the dict after the whole fold, relative to a starting
accumulator. -/
lemma lookupFields_foldl (rows : List TranslationRow)
    (acc : List (String × List String)) (m f : String) :
    (f ∈ lookupFields
        (rows.foldl (fun a t => addChange a t.contentType.name t.field) acc) m)
      ↔ (f ∈ lookupFields acc m ∨
          ∃ t ∈ rows, t.contentType.name = m ∧ t.field = f) := by
  induction rows generalizing acc with
  | nil => simp
  | cons t ts ih =>
    rw [List.foldl_cons, ih]
    have step : f ∈ lookupFields (addChange acc t.contentType.name t.field) m
        ↔ (f ∈ lookupFields acc m ∨ (t.contentType.name = m ∧ t.field = f)) := by
      rw [lookupFields_addChange]
      by_cases h : m = t.contentType.name
      · rw [if_pos h, ← h]
        by_cases hf : t.field ∈ lookupFields acc m
        · rw [if_pos hf]
          constructor
          · exact fun hh => Or.inl hh
          · rintro (hh | ⟨-, hh⟩)
            · exact hh
            · exact hh ▸ hf
        · rw [if_neg hf, List.mem_append, List.mem_singleton]
          constructor
          · rintro (hh | hh)
            · exact Or.inl hh
            · exact Or.inr ⟨rfl, hh.symm⟩
          · rintro (hh | ⟨-, hh⟩)
            · exact Or.inl hh
            · exact Or.inr hh.symm
      · have h2 : ¬ t.contentType.name = m := fun e => h e.symm
        rw [if_neg h]
        constructor
        · exact fun hh => Or.inl hh
        · rintro (hh | ⟨he, -⟩)
          · exact hh
          · exact absurd he h2
    rw [step]
    simp only [List.mem_cons]
    constructor
    · rintro ((hh | hh) | hh)
      · exact Or.inl hh
      · exact Or.inr ⟨t, Or.inl rfl, hh⟩
      · rcases hh with ⟨u, hu, hc⟩
        exact Or.inr ⟨u, Or.inr hu, hc⟩
    · rintro (hh | hh)
      · exact Or.inl (Or.inl hh)
      · rcases hh with ⟨u, hu | hu, hc⟩
        · exact Or.inl (Or.inr (hu ▸ hc))
        · exact Or.inr ⟨u, hu, hc⟩

/-- Key membership in the dict after the whole fold, relative to a starting
accumulator. -/
lemma mem_keysOf_foldl (rows : List TranslationRow)
    (acc : List (String × List String)) (m : String) :
    (m ∈ keysOf
        (rows.foldl (fun a t => addChange a t.contentType.name t.field) acc))
      ↔ (m ∈ keysOf acc ∨ ∃ t ∈ rows, t.contentType.name = m) := by
  induction rows generalizing acc with
  | nil => simp
  | cons t ts ih =>
    rw [List.foldl_cons, ih, mem_keysOf_addChange]
    simp only [List.mem_cons]
    constructor
    · rintro ((hh | hh) | hh)
      · exact Or.inl hh
      · exact Or.inr ⟨t, Or.inl rfl, hh.symm⟩
      · rcases hh with ⟨u, hu, hc⟩
        exact Or.inr ⟨u, Or.inr hu, hc⟩
    · rintro (hh | hh)
      · exact Or.inl (Or.inl hh)
      · rcases hh with ⟨u, hu | hu, hc⟩
        · exact Or.inl (Or.inr (hu ▸ hc.symm))
        · exact Or.inr ⟨u, hu, hc⟩

/-- The fold preserves duplicate-freedom of the keys. -/
lemma keysOf_foldl_nodup (rows : List TranslationRow)
    (acc : List (String × List String)) (h : (keysOf acc).Nodup) :
    (keysOf
      (rows.foldl (fun a t => addChange a t.contentType.name t.field) acc)).Nodup := by
  induction rows generalizing acc with
  | nil => exact h
  | cons t ts ih =>
    rw [List.foldl_cons]
    exact ih _ (keysOf_addChange_nodup _ _ _ h)

/-- The fold preserves duplicate-freedom of every field list. -/
lemma fields_foldl_nodup (rows : List TranslationRow)
    (acc : List (String × List String)) (h : ∀ p ∈ acc, p.2.Nodup) :
    ∀ p ∈ rows.foldl (fun a t => addChange a t.contentType.name t.field) acc,
      p.2.Nodup := by
  induction rows generalizing acc with
  | nil => exact h
  | cons t ts ih =>
    rw [List.foldl_cons]
    exact ih _ (fields_addChange_nodup _ _ _ h)

/-- With duplicate-free keys, each dict entry is what `lookupFields` returns
for its key. -/
lemma lookupFields_of_mem (acc : List (String × List String))
    (h : (keysOf acc).Nodup) {p : String × List String} (hp : p ∈ acc) :
    lookupFields acc p.1 = p.2 := by
  induction acc with
  | nil => cases hp
  | cons q rest ih =>
    have h' : q.1 ∉ keysOf rest ∧ (keysOf rest).Nodup := by
      rw [keysOf, List.map_cons, List.nodup_cons] at h
      exact h
    rcases List.mem_cons.mp hp with hq | hq
    · subst hq
      simp [lookupFields]
    · have hkey : p.1 ∈ keysOf rest := by
        rw [keysOf]
        exact List.mem_map_of_mem Prod.fst hq
      have hne : ¬ q.1 = p.1 := fun e => h'.1 (e ▸ hkey)
      simp only [lookupFields, if_neg hne]
      exact ih h'.2 hq

/-- Claim C2 (amended): for every record type in scope, the candidate set
contains exactly those rows of that type whose field is not declared
translatable (and every row of a type that is not `Translatable`); and
provided at least one record type is in scope, no row whose field lies in its
type's non-empty declared set is ever selected as stale.  The proviso is
forced: with an empty scope the combined filter is the empty `Q()`, which
matches every translation row. -/
theorem sync_C2_amended (cts : List RecordType) (rows : List TranslationRow)
    (hne : cts ≠ []) :
    (∀ ct ∈ cts, ∀ t ∈ rows, t.contentType = ct →
      (t ∈ staleRows cts rows ↔
        (ct.translatable = true → t.field ∉ ct.translatableFields))) ∧
    (∀ t ∈ rows, t.contentType.translatable = true →
      t.field ∈ t.contentType.translatableFields → t ∉ staleRows cts rows) := by
  have hmem : ∀ t : TranslationRow,
      t ∈ staleRows cts rows ↔
        t ∈ rows ∧ ∃ ct ∈ cts, modelQuery ct t = true := by
    intro t
    rw [mem_staleRows]
    simp [hne]
  constructor
  · intro ct hct t ht htype
    rw [hmem]
    constructor
    · rintro ⟨-, ct', hct', hq⟩
      rw [modelQuery_eq_true] at hq
      intro htr
      have hcteq : ct' = ct := by rw [← hq.1, htype]
      subst hcteq
      exact hq.2 htr
    · intro hcond
      exact ⟨ht, ct, hct, modelQuery_eq_true.mpr ⟨htype, hcond⟩⟩
  · intro t ht htr hfld hstale
    rw [hmem] at hstale
    obtain ⟨-, ct', hct', hq⟩ := hstale
    rw [modelQuery_eq_true] at hq
    have hcteq : ct' = t.contentType := hq.1.symm
    subst hcteq
    exact hq.2 htr hfld

/-- Claim C2 counterexample: with a registered application that owns no
content types, the scope is empty, the combined filter is the empty `Q()`,
and the command selects and bulk-deletes a row whose field *is* in its type's
non-empty declared translatable-field set. -/
theorem sync_C2_empty_scope_deletes_fresh_row :
    rowTitle.field ∈ articleType.translatableFields ∧
    articleType.translatableFields ≠ [] ∧
    handle pyOrder envEmptyScope ⟨true, true, "y"⟩ ⟨1, false, some "emptyapp"⟩
      = Except.ok ⟨none, [rowTitle],
          [reportHeader, "- 'title' field in 'Article' model", successMessage],
          false⟩ :=
  ⟨by decide, by decide, rfl⟩

/-- Claim C2 witness: the amended theorem applied to a one-type scope. -/
theorem sync_C2_amended_witness :
    rowSubtitle ∈ staleRows [articleType] [rowTitle, rowSubtitle] ↔
      (articleType.translatable = true →
        rowSubtitle.field ∉ articleType.translatableFields) :=
  (sync_C2_amended [articleType] [rowTitle, rowSubtitle] (by decide)).1
    articleType (by decide) rowSubtitle (by decide) rfl

/-- Claim C10: a `Translatable` record type whose declared translatable-field
set is empty gets the same per-type predicate as a type that declares none at
all: `Q(content_type=ct) & ~Q(field__in=[])` matches exactly the rows
`Q(content_type=ct)` matches, so every row of that type is selected. -/
theorem sync_C10_empty_field_set (ct : RecordType) (t : TranslationRow)
    (h : ct.translatableFields = []) :
    translatableModelQuery ct t = plainModelQuery ct t ∧
    modelQuery ct t = plainModelQuery ct t := by
  have h1 : translatableModelQuery ct t = plainModelQuery ct t := by
    unfold translatableModelQuery plainModelQuery
    simp [h]
  refine ⟨h1, ?_⟩
  unfold modelQuery
  cases hc : ct.translatable
  · simp [hc]
  · simp [hc, h1]

/-- Claim C10 witness: the equivalence at the `LegacyPage` fixture. -/
theorem sync_C10_witness :
    translatableModelQuery legacyType ⟨legacyType, "title"⟩
        = plainModelQuery legacyType ⟨legacyType, "title"⟩ ∧
      modelQuery legacyType ⟨legacyType, "title"⟩
        = plainModelQuery legacyType ⟨legacyType, "title"⟩ :=
  sync_C10_empty_field_set legacyType ⟨legacyType, "title"⟩ (by decide)

/-- Claim C4 (amended): at verbosity >= 1 the report writes the header plus
one rendered line per affected record type; duplicate field names per type
collapse (each entry's field list is duplicate-free and holds exactly the
affected fields), `"field"` is pluralized exactly when more than one distinct
field name is present, and each line displays the distinct field names in
*some* set-iteration order — a permutation of the first-appearance order, not
necessarily that order itself; at verbosity 0 the step emits nothing. -/
theorem sync_C4_amended (sigma : String → List String → List String)
    (hsigma : ∀ m fs, (sigma m fs).Perm fs) (v : Nat)
    (rows : List TranslationRow) :
    (v = 0 → reportWrites sigma v rows = []) ∧
    (1 ≤ v →
      reportWrites sigma v rows
          = [reportHeader,
             String.intercalate "\n"
               ((changesOf rows).map (fun p => changeLine p.1 (sigma p.1 p.2)))] ∧
      (keysOf (changesOf rows)).Nodup ∧
      (∀ m, m ∈ keysOf (changesOf rows) ↔ ∃ t ∈ rows, t.contentType.name = m) ∧
      (∀ p ∈ changesOf rows,
        p.2.Nodup ∧ (sigma p.1 p.2).Perm p.2 ∧
        (∀ f, f ∈ p.2 ↔ ∃ t ∈ rows, t.contentType.name = p.1 ∧ t.field = f) ∧
        changeLine p.1 (sigma p.1 p.2)
          = "- '" ++ String.intercalate ", " (sigma p.1 p.2) ++ "' field" ++
              (if 1 < p.2.length then "s" else "") ++ " in '" ++ p.1 ++
              "' model")) := by
  constructor
  · intro hv
    subst hv
    simp [reportWrites]
  · intro hv
    have hnod : (keysOf (changesOf rows)).Nodup :=
      keysOf_foldl_nodup rows [] (by simp [keysOf])
    refine ⟨by simp [reportWrites, hv], hnod, ?_, ?_⟩
    · intro m
      have hk := mem_keysOf_foldl rows [] m
      simpa [keysOf, changesOf] using hk
    · intro p hp
      have hfld : p.2.Nodup := fields_foldl_nodup rows [] (by simp) p hp
      have hlook : lookupFields (changesOf rows) p.1 = p.2 :=
        lookupFields_of_mem _ hnod hp
      refine ⟨hfld, hsigma p.1 p.2, ?_, ?_⟩
      · intro f
        rw [← hlook, changesOf]
        have hfo := lookupFields_foldl rows [] p.1 f
        simpa [lookupFields] using hfo
      · rw [changeLine, (hsigma p.1 p.2).length_eq]

/-- Claim C4 counterexample: `revOrder` is as admissible a set-iteration
order as the first-appearance order `pyOrder` (it yields a permutation of the
same distinct fields), yet the two render different reports, so the displayed
field order is not guaranteed to be the order of first appearance. -/
theorem sync_C4_order_not_guaranteed :
    (revOrder "Article" ["subtitle", "caption"]).Perm ["subtitle", "caption"] ∧
    reportWrites pyOrder 1 [rowSubtitle, rowCaption]
        = [reportHeader, "- 'subtitle, caption' fields in 'Article' model"] ∧
    reportWrites revOrder 1 [rowSubtitle, rowCaption]
        = [reportHeader, "- 'caption, subtitle' fields in 'Article' model"] ∧
    reportWrites revOrder 1 [rowSubtitle, rowCaption]
        ≠ reportWrites pyOrder 1 [rowSubtitle, rowCaption] :=
  ⟨by decide, rfl, rfl, by decide⟩

/-- Claim C4 witness: the amended theorem applied to the two-field fixture
with the canonical order. -/
theorem sync_C4_amended_witness :
    (keysOf (changesOf [rowSubtitle, rowCaption])).Nodup :=
  ((sync_C4_amended pyOrder (fun _ fs => List.Perm.refl fs) 1
      [rowSubtitle, rowCaption]).2 (by decide)).2.1

/-- Claim C5: a non-empty application-label argument matching no registered
application makes the command raise `CommandError` with exactly
`"App '<label>' is not found."`; the `Except.error` result carries no outcome,
so no translation-row query or deletion has run and the translation store is
untouched.  (An empty-string label is Python-falsy and is treated as if no
label were given, line 46.) -/
theorem sync_C5_unknown_app (sigma : String → List String → List String)
    (env : SyncEnv) (stdin : Stdin) (opts : CmdOptions) (lbl : String)
    (hl : opts.appLabel = some lbl) (hne : lbl ≠ "")
    (hmem : lbl ∉ env.appLabels) :
    handle sigma env stdin opts
      = Except.error ("App '" ++ lbl ++ "' is not found.") := by
  have hs : resolveScope env opts.appLabel
      = Except.error ("App '" ++ lbl ++ "' is not found.") := by
    rw [hl]
    simp [resolveScope, hne, hmem]
  unfold handle
  rw [hs]

/-- Claim C5 witness: label `shop` against an environment registering only
`blog`. -/
theorem sync_C5_witness :
    handle pyOrder envBlog ⟨true, true, "y"⟩ ⟨1, true, some "shop"⟩
      = Except.error "App 'shop' is not found." :=
  sync_C5_unknown_app pyOrder envBlog ⟨true, true, "y"⟩ ⟨1, true, some "shop"⟩
    "shop" rfl (by decide) (by decide)

/-- Claim C6: when the candidate set is empty the command never prompts,
deletes nothing, and its only stdout write is the
`"No translations to synchronize."` message. -/
theorem sync_C6_nothing_to_do (sigma : String → List String → List String)
    (env : SyncEnv) (stdin : Stdin) (opts : CmdOptions) (cts : List RecordType)
    (hs : resolveScope env opts.appLabel = Except.ok cts)
    (hq : staleRows cts env.translations = []) :
    handle sigma env stdin opts
      = Except.ok ⟨none, [], [nothingMessage], false⟩ := by
  unfold handle
  rw [hs]
  simp [hq]

/-- Claim C6 witness: an environment whose only row is fresh. -/
theorem sync_C6_witness :
    handle pyOrder envQuiet ⟨true, true, "y"⟩ interactiveOpts
      = Except.ok ⟨none, [], [nothingMessage], false⟩ :=
  sync_C6_nothing_to_do pyOrder envQuiet ⟨true, true, "y"⟩ interactiveOpts
    [articleType] rfl rfl

/-- Claim C7: with `--noinput` (`interactive = false`) and a non-empty
candidate set, `input()` is never called (`prompted = false`), the whole
candidate set is bulk-deleted, and the success message is written. -/
theorem sync_C7_noinput_deletes (sigma : String → List String → List String)
    (env : SyncEnv) (stdin : Stdin) (opts : CmdOptions) (cts : List RecordType)
    (hs : resolveScope env opts.appLabel = Except.ok cts)
    (hi : opts.interactive = false)
    (hq : staleRows cts env.translations ≠ []) :
    handle sigma env stdin opts
      = Except.ok ⟨none, staleRows cts env.translations,
          reportWrites sigma opts.verbosity (staleRows cts env.translations)
            ++ [successMessage], false⟩ := by
  unfold handle
  rw [hs]
  have he : (staleRows cts env.translations).isEmpty = false := by
    cases hx : staleRows cts env.translations with
    | nil => exact absurd hx hq
    | cons a as => rfl
  simp [he, hi]

/-- Claim C7 witness: `--noinput` on the `blog` fixture deletes the stale
row without prompting. -/
theorem sync_C7_witness :
    handle pyOrder envBlog ⟨true, true, ""⟩ noinputOpts
      = Except.ok ⟨none, staleRows [articleType] envBlog.translations,
          reportWrites pyOrder 1 (staleRows [articleType] envBlog.translations)
            ++ [successMessage], false⟩ :=
  sync_C7_noinput_deletes pyOrder envBlog ⟨true, true, ""⟩ noinputOpts
    [articleType] rfl rfl (by decide)

/-- Claim C8: an empty entered line behaves exactly like entering `"y"`: the
two runs of the command are equal in every observable (return value,
deletions, stdout, prompting), whatever the environment and options.  Lines
108-109 replace the empty lowercased input by `"y"` before the comparison. -/
theorem sync_C8_empty_input_is_yes (sigma : String → List String → List String)
    (env : SyncEnv) (hasTty tty : Bool) (opts : CmdOptions) :
    handle sigma env ⟨hasTty, tty, ""⟩ opts
      = handle sigma env ⟨hasTty, tty, "y"⟩ opts := rfl

/-- Claim C8 witness: the equality at the `blog` fixture. -/
theorem sync_C8_witness :
    handle pyOrder envBlog ⟨true, true, ""⟩ interactiveOpts
      = handle pyOrder envBlog ⟨true, true, "y"⟩ interactiveOpts :=
  sync_C8_empty_input_is_yes pyOrder envBlog true true interactiveOpts

/-- Claim C9: interactive mode with a non-empty candidate set and a stdin
whose `isatty()` reports false: `input()` is never called, nothing is
deleted, the informational skip message is written, and the command completes
normally (an `Except.ok` result, exit code 0) rather than failing.  (The
generic cancellation message follows the skip message, since `run` is still
`None` at line 130.) -/
theorem sync_C9_not_a_tty (sigma : String → List String → List String)
    (env : SyncEnv) (stdin : Stdin) (opts : CmdOptions) (cts : List RecordType)
    (hs : resolveScope env opts.appLabel = Except.ok cts)
    (hq : staleRows cts env.translations ≠ [])
    (hi : opts.interactive = true)
    (hh : stdin.hasIsatty = true) (ht : stdin.isatty = false) :
    handle sigma env stdin opts
      = Except.ok ⟨none, [],
          reportWrites sigma opts.verbosity (staleRows cts env.translations)
            ++ [ttySkipMessage, cancelMessage], false⟩ := by
  unfold handle
  rw [hs]
  have he : (staleRows cts env.translations).isEmpty = false := by
    cases hx : staleRows cts env.translations with
    | nil => exact absurd hx hq
    | cons a as => rfl
  simp [he, hi, hh, ht]

/-- Claim C9 witness: the `blog` fixture with a non-tty stdin. -/
theorem sync_C9_witness :
    handle pyOrder envBlog ⟨true, false, ""⟩ interactiveOpts
      = Except.ok ⟨none, [],
          reportWrites pyOrder 1 (staleRows [articleType] envBlog.translations)
            ++ [ttySkipMessage, cancelMessage], false⟩ :=
  sync_C9_not_a_tty pyOrder envBlog ⟨true, false, ""⟩ interactiveOpts
    [articleType] rfl (by decide) rfl rfl rfl

/-- Claim C1 is a code bug: in interactive mode with a terminal stdin and a
non-empty candidate set, entering `"y"` or `"yes"` makes `handle` execute
`return True` (line 113) straight out of the method, so `run` is never set,
`queryset.delete()` never executes (`deleted = []`) and the success message
is never written — the confirmation never reaches a deletion, contradicting
the claim (and the code's own `run`/`if run:` structure, which this path
leaves dead). -/
theorem sync_C1_yes_returns_without_deleting :
    handle pyOrder envBlog ⟨true, true, "y"⟩ interactiveOpts
        = Except.ok ⟨some true, [],
            [reportHeader, "- 'subtitle' field in 'Article' model"], true⟩ ∧
    handle pyOrder envBlog ⟨true, true, "yes"⟩ interactiveOpts
        = Except.ok ⟨some true, [],
            [reportHeader, "- 'subtitle' field in 'Article' model"], true⟩ ∧
    successMessage ∉
      [reportHeader, "- 'subtitle' field in 'Article' model"] :=
  ⟨rfl, rfl, by decide⟩

/-- Claim C3 is a code bug: entering `"n"`/`"no"` (or any indeterminate
input) in interactive terminal mode does delete nothing, but the
`return False`/`return None` at lines 115/117 exit `handle` before line 134,
so the cancellation message is never written, contradicting the claim's
second half. -/
theorem sync_C3_no_returns_without_message :
    handle pyOrder envBlog ⟨true, true, "n"⟩ interactiveOpts
        = Except.ok ⟨some false, [],
            [reportHeader, "- 'subtitle' field in 'Article' model"], true⟩ ∧
    handle pyOrder envBlog ⟨true, true, "maybe"⟩ interactiveOpts
        = Except.ok ⟨none, [],
            [reportHeader, "- 'subtitle' field in 'Article' model"], true⟩ ∧
    cancelMessage ∉
      [reportHeader, "- 'subtitle' field in 'Article' model"] :=
  ⟨rfl, rfl, by decide⟩
